import Mathlib

/-!
Shallow embedding of the facial-recognition service
(`app/services/facial_recognition.py`, `app/services/database.py`,
`app/main.py`) over real-number arithmetic.

Embeddings are lists of reals. External collaborators (the face-location
library, the TFLite interpreter, the Firestore connection attempt and the
uuid generator) are passed in as explicit parameters, so every function of
the repository's own code is a total Lean function of its inputs.
-/

namespace FacialRecognition

/-- An embedding is a fixed-length vector of reals
(`np.ndarray` of floats in the source). -/
abbrev Embedding := List ℝ

/-- Squared Euclidean norm of a vector: the sum of the squares of its
entries. -/
def l2normSq (v : List ℝ) : ℝ :=
  (v.map (fun x => x ^ 2)).sum

/-- Euclidean norm, `np.linalg.norm(v)` in the source. -/
noncomputable def l2norm (v : List ℝ) : ℝ :=
  Real.sqrt (l2normSq v)

/-- L2 normalization step of `get_face_encodings`
(`facial_recognition.py` lines 101-106):
`norm = np.linalg.norm(embedding); if norm > 0: embedding = embedding / norm`. -/
noncomputable def normalize (embedding : Embedding) : Embedding :=
  if 0 < l2norm embedding then
    embedding.map (fun x => x / l2norm embedding)
  else
    embedding

/-- Error raised by numpy when two 1-D arrays cannot be broadcast. -/
inductive ShapeError where
  | broadcastMismatch : ShapeError

/-- Elementwise difference of two 1-D numpy arrays, with numpy's 1-D
broadcasting rule: equal lengths subtract pointwise; a length-1 operand is
broadcast across the other; any other length mismatch raises. -/
def npSub (a b : List ℝ) : Except ShapeError (List ℝ) :=
  if a.length = b.length then
    Except.ok (List.zipWith (fun x y => x - y) a b)
  else if a.length = 1 then
    Except.ok (b.map (fun y => a.headI - y))
  else if b.length = 1 then
    Except.ok (a.map (fun x => x - b.headI))
  else
    Except.error ShapeError.broadcastMismatch

/-- Mathematical Euclidean distance between two vectors of equal length. -/
noncomputable def eucDist (a b : List ℝ) : ℝ :=
  l2norm (List.zipWith (fun x y => x - y) a b)

/-- `compare_faces` (`facial_recognition.py` lines 110-126): iterate the
known encodings; for each, compute `np.linalg.norm(known - probe)` (which
may raise on a shape mismatch) and return `True` as soon as one distance
is `<= tolerance`; return `False` after the loop. -/
noncomputable def compare_faces :
    List Embedding → Embedding → ℝ → Except ShapeError Bool
  | [], _, _ => Except.ok false
  | known :: rest, probe, tolerance =>
    match npSub known probe with
    | Except.error e => Except.error e
    | Except.ok diff =>
      if l2norm diff ≤ tolerance then Except.ok true
      else compare_faces rest probe tolerance

/-- Errors surfaced by the recognition pipeline as `HTTPException`s. -/
inductive ApiError where
  | invalidImageFormat : ApiError
  | noFaceDetected : ApiError
  | multipleFacesDetected : ApiError
  | modelNotInitialized : ApiError
deriving DecidableEq

/-- A detected face rectangle `(top, right, bottom, left)`. -/
structure FaceRegion where
  top : ℤ
  right : ℤ
  bottom : ℤ
  left : ℤ

instance : Inhabited FaceRegion := ⟨⟨0, 0, 0, 0⟩⟩

/-- `get_face_encodings` (`facial_recognition.py` lines 62-107).
`face_locations` is the result of the external face-location library on
the decoded image; `interpreter` is the TFLite model handle, `none` when
the startup load failed, otherwise the composite crop → preprocess →
forward pass producing the raw embedding for a region. The source checks
zero faces, then multiple faces, then the interpreter handle, then
normalizes the single embedding and returns it as a one-element list. -/
noncomputable def get_face_encodings (face_locations : List FaceRegion)
    (interpreter : Option (FaceRegion → Embedding)) :
    Except ApiError (List Embedding) :=
  if face_locations.isEmpty then
    Except.error ApiError.noFaceDetected
  else if 1 < face_locations.length then
    Except.error ApiError.multipleFacesDetected
  else
    match interpreter with
    | none => Except.error ApiError.modelNotInitialized
    | some infer => Except.ok [normalize (infer face_locations.headI)]

/-- A Firestore document in the `users` collection: it always carries a
`user_id`, and may carry an `encoding` field (new single-vector shape)
and/or a `face_encodings` field (old list-of-vectors shape). -/
structure UserDoc where
  user_id : String
  encoding : Option (List ℝ)
  face_encodings : Option (List (List ℝ))

/-- A user record after the read-path adapter: canonical
`face_encodings : list of vectors` shape. -/
structure StoredUser where
  user_id : String
  face_encodings : List (List ℝ)

/-- The persisted state of the `users` collection. -/
abbrev Store := List UserDoc

/-- Errors raised by the database layer
(`ConnectionError` / `ValueError` in the source). -/
inductive DbError where
  | connectionError : DbError
  | valueError : DbError
deriving DecidableEq

/-- `initialize_firebase` (`database.py` lines 13-61): the whole
credential-loading and client-construction attempt is wrapped in
`try/except`; on success the global `db` handle is set, on any failure a
warning is printed and the function returns normally leaving `db = None`.
`attempt` is the outcome of the external Firebase initialization. -/
def initialize_firebase (attempt : Except String Store) : Option Store :=
  match attempt with
  | Except.ok s => some s
  | Except.error _ => none

/-- `save_user` (`database.py` lines 64-105): raises `ConnectionError`
when `db is None`, raises `ValueError` on an empty encodings list,
otherwise writes a document `{user_id, encoding: first encoding}` keyed
by a fresh uuid and returns that id. `fresh_id` is the externally
generated `uuid.uuid4()` value. -/
def save_user (db : Option Store) (face_encodings : List Embedding)
    (fresh_id : String) : Except DbError (String × Store) :=
  match db with
  | none => Except.error DbError.connectionError
  | some store =>
    if face_encodings.isEmpty then
      Except.error DbError.valueError
    else
      Except.ok (fresh_id,
        store ++ [⟨fresh_id, some face_encodings.headI, none⟩])

/-- Read-path adapter of `get_all_users` (`database.py` lines 140-153):
a document with an `encoding` field becomes a one-element encodings list;
otherwise a document with a `face_encodings` field keeps that list;
a document with neither field is skipped. -/
def adaptUserDoc (doc : UserDoc) : Option StoredUser :=
  match doc.encoding with
  | some e => some ⟨doc.user_id, [e]⟩
  | none =>
    match doc.face_encodings with
    | some l => some ⟨doc.user_id, l⟩
    | none => none

/-- `get_all_users` (`database.py` lines 115-155): raises
`ConnectionError` when `db is None`, otherwise streams every document and
applies the read-path adapter, skipping corrupt documents. -/
def get_all_users (db : Option Store) : Except DbError (List StoredUser) :=
  match db with
  | none => Except.error DbError.connectionError
  | some store => Except.ok (store.filterMap adaptUserDoc)

/-- The duplicate-scan loop shared by `register` and `login` in
`app/main.py`: walk the users in enumeration order and stop at the first
whose stored encodings match the probe; a shape error inside
`compare_faces` propagates. -/
noncomputable def findMatch :
    List StoredUser → Embedding → ℝ → Except ShapeError (Option StoredUser)
  | [], _, _ => Except.ok none
  | u :: rest, probe, tolerance =>
    match compare_faces u.face_encodings probe tolerance with
    | Except.error e => Except.error e
    | Except.ok true => Except.ok (some u)
    | Except.ok false => findMatch rest probe tolerance

/-- Outcome of the `/register` endpoint, as mapped to HTTP responses. -/
inductive RegisterOutcome where
  | registered : String → RegisterOutcome
  | duplicate : RegisterOutcome
  | apiError : ApiError → RegisterOutcome
  | encodingExtractionFailed : RegisterOutcome
  | internalError : RegisterOutcome

/-- Outcome of the `/login` endpoint, as mapped to HTTP responses. -/
inductive LoginOutcome where
  | authenticated : String → LoginOutcome
  | unauthenticated : LoginOutcome
  | apiError : ApiError → LoginOutcome
  | encodingExtractionFailed : LoginOutcome
  | internalError : LoginOutcome

/-- The `register` handler (`main.py` lines 46-84) after image decoding:
extract the probe encoding, guard against an empty encodings list, fetch
all users, reject as duplicate if any stored user matches, otherwise save
the new user and answer with the fresh id. `HTTPException`s map to their
outcomes; `ConnectionError`, `ValueError` and numpy shape errors reach the
generic handler (HTTP 500). The second component is the store state after
the call. -/
noncomputable def register (db : Option Store)
    (face_locations : List FaceRegion)
    (interpreter : Option (FaceRegion → Embedding))
    (threshold : ℝ) (fresh_id : String) :
    RegisterOutcome × Option Store :=
  match get_face_encodings face_locations interpreter with
  | Except.error e => (RegisterOutcome.apiError e, db)
  | Except.ok encs =>
    if encs.isEmpty then (RegisterOutcome.encodingExtractionFailed, db)
    else
      match get_all_users db with
      | Except.error _ => (RegisterOutcome.internalError, db)
      | Except.ok users =>
        match findMatch users encs.headI threshold with
        | Except.error _ => (RegisterOutcome.internalError, db)
        | Except.ok (some _) => (RegisterOutcome.duplicate, db)
        | Except.ok none =>
          match save_user db [encs.headI] fresh_id with
          | Except.error _ => (RegisterOutcome.internalError, db)
          | Except.ok (uid, store) =>
            (RegisterOutcome.registered uid, some store)

/-- The `login` handler (`main.py` lines 100-138) after image decoding:
extract the probe encoding, fetch all users, authenticate as the first
matching user, otherwise answer unauthenticated. -/
noncomputable def login (db : Option Store)
    (face_locations : List FaceRegion)
    (interpreter : Option (FaceRegion → Embedding))
    (threshold : ℝ) : LoginOutcome :=
  match get_face_encodings face_locations interpreter with
  | Except.error e => LoginOutcome.apiError e
  | Except.ok encs =>
    if encs.isEmpty then LoginOutcome.encodingExtractionFailed
    else
      match get_all_users db with
      | Except.error _ => LoginOutcome.internalError
      | Except.ok users =>
        match findMatch users encs.headI threshold with
        | Except.error _ => LoginOutcome.internalError
        | Except.ok (some u) => LoginOutcome.authenticated u.user_id
        | Except.ok none => LoginOutcome.unauthenticated

/-! ### Helper lemmas -/

lemma l2normSq_nonneg (v : List ℝ) : 0 ≤ l2normSq v := by
  unfold l2normSq
  apply List.sum_nonneg
  intro x hx
  rcases List.mem_map.mp hx with ⟨y, _, rfl⟩
  positivity

lemma l2norm_nonneg (v : List ℝ) : 0 ≤ l2norm v := Real.sqrt_nonneg _

lemma l2normSq_map_div (v : List ℝ) (c : ℝ) :
    l2normSq (v.map (fun x => x / c)) = l2normSq v / c ^ 2 := by
  unfold l2normSq
  induction v with
  | nil => simp
  | cons x xs ih =>
    simp only [List.map_cons, List.sum_cons] at *
    rw [ih, div_pow, add_div]

lemma l2normSq_cons (x : ℝ) (xs : List ℝ) :
    l2normSq (x :: xs) = x ^ 2 + l2normSq xs := by
  simp [l2normSq]

lemma eucDist_def (a b : List ℝ) :
    eucDist a b = l2norm (List.zipWith (fun x y => x - y) a b) := rfl

lemma eucDist_self (a : List ℝ) : eucDist a a = 0 := by
  rw [eucDist_def]
  unfold l2norm
  have h : l2normSq (List.zipWith (fun x y => x - y) a a) = 0 := by
    induction a with
    | nil => simp [l2normSq]
    | cons x xs ih =>
      rw [List.zipWith_cons_cons, l2normSq_cons, ih]
      ring
  rw [h, Real.sqrt_zero]

lemma npSub_eq_of_length {a b : List ℝ} (h : a.length = b.length) :
    npSub a b = Except.ok (List.zipWith (fun x y => x - y) a b) := by
  unfold npSub
  rw [if_pos h]

lemma compare_faces_ok_true_iff (known : List Embedding) (probe : Embedding)
    (t : ℝ) (hdim : ∀ k ∈ known, k.length = probe.length) :
    compare_faces known probe t = Except.ok true ↔
      ∃ k ∈ known, eucDist k probe ≤ t := by
  induction known with
  | nil => simp [compare_faces]
  | cons k rest ih =>
    have hk : k.length = probe.length := hdim k (by simp)
    have hrest : ∀ x ∈ rest, x.length = probe.length :=
      fun x hx => hdim x (by simp [hx])
    simp only [compare_faces, npSub_eq_of_length hk]
    by_cases hle : l2norm (List.zipWith (fun x y => x - y) k probe) ≤ t
    · rw [if_pos hle]
      refine ⟨fun _ => ⟨k, by simp, ?_⟩, fun _ => rfl⟩
      rw [eucDist_def]
      exact hle
    · rw [if_neg hle, ih hrest]
      constructor
      · rintro ⟨x, hx, hxd⟩
        exact ⟨x, by simp [hx], hxd⟩
      · rintro ⟨x, hx, hxd⟩
        rcases List.mem_cons.mp hx with rfl | hx2
        · rw [eucDist_def] at hxd
          exact absurd hxd hle
        · exact ⟨x, hx2, hxd⟩

lemma compare_faces_total (known : List Embedding) (probe : Embedding)
    (t : ℝ) (hdim : ∀ k ∈ known, k.length = probe.length) :
    compare_faces known probe t = Except.ok true ∨
      compare_faces known probe t = Except.ok false := by
  induction known with
  | nil => right; simp [compare_faces]
  | cons k rest ih =>
    have hk : k.length = probe.length := hdim k (by simp)
    simp only [compare_faces, npSub_eq_of_length hk]
    by_cases hle : l2norm (List.zipWith (fun x y => x - y) k probe) ≤ t
    · left
      rw [if_pos hle]
    · rw [if_neg hle]
      exact ih (fun x hx => hdim x (by simp [hx]))

/-! ### Claims about the matcher -/

/-- C1: on dimension-compatible inputs, `compare_faces` returns true iff
some known embedding is within Euclidean distance `threshold` of the
probe; in particular any embedding matches itself at threshold 0, a known
embedding strictly farther than the threshold does not match, and
permuting the known sequence never changes the boolean result. -/
theorem compare_faces_spec (probe : Embedding) (t : ℝ) :
    (∀ known : List Embedding, (∀ k ∈ known, k.length = probe.length) →
      (compare_faces known probe t = Except.ok true ↔
        ∃ k ∈ known, eucDist k probe ≤ t)) ∧
    (∀ a : Embedding, compare_faces [a] a 0 = Except.ok true) ∧
    (∀ a b : Embedding, a.length = b.length → 0 ≤ t → t < eucDist a b →
      compare_faces [a] b t = Except.ok false) ∧
    (∀ known known' : List Embedding, known.Perm known' →
      (∀ k ∈ known, k.length = probe.length) →
      compare_faces known probe t = compare_faces known' probe t) := by
  refine ⟨fun known hdim => compare_faces_ok_true_iff known probe t hdim,
    fun a => ?_, fun a b hlen ht hlt => ?_, fun known known' hperm hdim => ?_⟩
  · have hz : l2norm (List.zipWith (fun x y => x - y) a a) ≤ 0 := by
      rw [← eucDist_def, eucDist_self]
    simp only [compare_faces, npSub_eq_of_length (rfl : a.length = a.length)]
    rw [if_pos hz]
  · have hgt : ¬ l2norm (List.zipWith (fun x y => x - y) a b) ≤ t := by
      rw [← eucDist_def]
      exact not_le.mpr hlt
    simp only [compare_faces, npSub_eq_of_length hlen]
    rw [if_neg hgt]
  · have hdim' : ∀ k ∈ known', k.length = probe.length :=
      fun k hk => hdim k (hperm.symm.subset hk)
    by_cases hP : ∃ k ∈ known, eucDist k probe ≤ t
    · have hP' : ∃ k ∈ known', eucDist k probe ≤ t := by
        rcases hP with ⟨k, hk, hd⟩
        exact ⟨k, hperm.subset hk, hd⟩
      rw [(compare_faces_ok_true_iff known probe t hdim).mpr hP,
        (compare_faces_ok_true_iff known' probe t hdim').mpr hP']
    · have hP' : ¬ ∃ k ∈ known', eucDist k probe ≤ t := by
        intro hc
        rcases hc with ⟨k, hk, hd⟩
        exact hP ⟨k, hperm.symm.subset hk, hd⟩
      have h1 := (compare_faces_total known probe t hdim).resolve_left
        (fun hc => hP ((compare_faces_ok_true_iff known probe t hdim).mp hc))
      have h2 := (compare_faces_total known' probe t hdim').resolve_left
        (fun hc => hP' ((compare_faces_ok_true_iff known' probe t hdim').mp hc))
      rw [h1, h2]

/-- Witness for C1: concrete instantiations of the self-match clause and
the strict-miss clause. -/
theorem compare_faces_spec_witness :
    compare_faces [[(0 : ℝ)]] [(0 : ℝ)] 0 = Except.ok true ∧
    (([(1 : ℝ), 0] : List ℝ).length = ([(0 : ℝ), 0] : List ℝ).length ∧
      (0 : ℝ) ≤ 0 ∧ (0 : ℝ) < eucDist [(1 : ℝ), 0] [(0 : ℝ), 0] ∧
      compare_faces [[(1 : ℝ), 0]] [(0 : ℝ), 0] 0 = Except.ok false) := by
  have hd : (0 : ℝ) < eucDist [(1 : ℝ), 0] [(0 : ℝ), 0] := by
    rw [eucDist_def]
    unfold l2norm
    have h1 : l2normSq
        (List.zipWith (fun x y => x - y) [(1 : ℝ), 0] [(0 : ℝ), 0]) = 1 := by
      norm_num [l2normSq]
    rw [h1, Real.sqrt_one]
    norm_num
  exact ⟨(compare_faces_spec [(0 : ℝ)] 0).2.1 [(0 : ℝ)],
    rfl, le_refl 0, hd,
    (compare_faces_spec [(0 : ℝ), 0] 0).2.2.1 [(1 : ℝ), 0] [(0 : ℝ), 0]
      rfl (le_refl 0) hd⟩

/-- Counterexample for C5: the known embedding `[0]` and the probe
`[0, 0]` have different dimensionality, yet `compare_faces` silently
broadcasts the length-1 vector (numpy 1-D broadcasting) and returns an
ordinary match boolean instead of reporting a shape error. -/
theorem compare_faces_shape_cex :
    ([(0 : ℝ)] : List ℝ).length ≠ ([(0 : ℝ), 0] : List ℝ).length ∧
    compare_faces [[(0 : ℝ)]] [(0 : ℝ), 0] 1 = Except.ok true := by
  constructor
  · norm_num
  · have hsub : npSub [(0 : ℝ)] [(0 : ℝ), 0] =
        Except.ok [(0 : ℝ) - 0, 0 - 0] := by
      unfold npSub
      norm_num [List.headI]
    have hle : l2norm [(0 : ℝ) - 0, 0 - 0] ≤ 1 := by
      have h0 : l2normSq [(0 : ℝ) - 0, 0 - 0] = 0 := by
        norm_num [l2normSq]
      unfold l2norm
      rw [h0, Real.sqrt_zero]
      norm_num
    simp only [compare_faces, hsub]
    rw [if_pos hle]

/-- C5 amended: `compare_faces` raises the shape error when the first
known embedding examined differs from the probe in dimensionality and
neither length is 1 (numpy cannot broadcast); a length-1 operand is
instead silently broadcast to an ordinary boolean result, and embeddings
after an early match are never shape-checked. -/
theorem compare_faces_shape_mismatch (k : Embedding) (rest : List Embedding)
    (probe : Embedding) (t : ℝ) (hne : k.length ≠ probe.length)
    (h1 : k.length ≠ 1) (h2 : probe.length ≠ 1) :
    compare_faces (k :: rest) probe t =
      Except.error ShapeError.broadcastMismatch := by
  have hsub : npSub k probe = Except.error ShapeError.broadcastMismatch := by
    unfold npSub
    rw [if_neg hne, if_neg h1, if_neg h2]
  simp only [compare_faces, hsub]

/-- Witness for the amended C5 at a 3-vector against a 2-vector. -/
theorem compare_faces_shape_mismatch_witness :
    compare_faces [[(0 : ℝ), 0, 0]] [(0 : ℝ), 0] 5 =
      Except.error ShapeError.broadcastMismatch :=
  compare_faces_shape_mismatch [(0 : ℝ), 0, 0] [] [(0 : ℝ), 0] 5
    (by norm_num) (by norm_num) (by norm_num)

/-! ### Claims about the normalization step -/

/-- C2: the normalization step returns a vector of unit Euclidean norm,
except when the input vector's norm is exactly zero, in which case the
input vector is returned unchanged. -/
theorem normalize_unit_norm (v : Embedding) :
    (l2norm v ≠ 0 → l2norm (normalize v) = 1) ∧
    (l2norm v = 0 → normalize v = v) := by
  refine ⟨fun h => ?_, fun h => ?_⟩
  · have hpos : 0 < l2norm v := lt_of_le_of_ne (l2norm_nonneg v) (Ne.symm h)
    have hs : 0 < l2normSq v := Real.sqrt_pos.mp hpos
    unfold normalize
    rw [if_pos hpos]
    unfold l2norm
    rw [l2normSq_map_div, Real.sq_sqrt (le_of_lt hs),
      div_self (ne_of_gt hs), Real.sqrt_one]
  · have hneg : ¬ 0 < l2norm v := by rw [h]; exact lt_irrefl 0
    unfold normalize
    rw [if_neg hneg]

/-- Witness for C2 at the embedding `[1]`. -/
theorem normalize_unit_norm_witness :
    l2norm [(1 : ℝ)] ≠ 0 ∧ l2norm (normalize [(1 : ℝ)]) = 1 := by
  have h : l2norm [(1 : ℝ)] = 1 := by
    unfold l2norm l2normSq
    simp
  exact ⟨by rw [h]; norm_num,
    (normalize_unit_norm [(1 : ℝ)]).1 (by rw [h]; norm_num)⟩

/-- C8: normalization is idempotent on non-zero vectors: an embedding
whose Euclidean norm is already 1 is returned unchanged by the
normalization step (exactly, hence within any floating tolerance). -/
theorem normalize_idempotent (v : Embedding) (h : l2norm v = 1) :
    normalize v = v := by
  unfold normalize
  rw [if_pos (by rw [h]; norm_num), h]
  simp

/-- Witness for C8 at the embedding `[1]`. -/
theorem normalize_idempotent_witness :
    l2norm [(1 : ℝ)] = 1 ∧ normalize [(1 : ℝ)] = [(1 : ℝ)] := by
  have h : l2norm [(1 : ℝ)] = 1 := by
    unfold l2norm l2normSq
    simp
  exact ⟨h, normalize_idempotent [(1 : ℝ)] h⟩

/-! ### Claims about the extraction pipeline's face-count policy -/

/-- C4: the pipeline proceeds past face location only when exactly one
region is found: zero regions yields `NoFaceDetected`, more than one
yields `MultipleFacesDetected`, both in `get_face_encodings` and in the
register and login flows built on it. -/
theorem face_count_policy (face_locations : List FaceRegion)
    (interp : Option (FaceRegion → Embedding)) (db : Option Store)
    (t : ℝ) (fresh : String) :
    (face_locations = [] →
      get_face_encodings face_locations interp =
          Except.error ApiError.noFaceDetected ∧
      (register db face_locations interp t fresh).1 =
          RegisterOutcome.apiError ApiError.noFaceDetected ∧
      login db face_locations interp t =
          LoginOutcome.apiError ApiError.noFaceDetected) ∧
    (1 < face_locations.length →
      get_face_encodings face_locations interp =
          Except.error ApiError.multipleFacesDetected ∧
      (register db face_locations interp t fresh).1 =
          RegisterOutcome.apiError ApiError.multipleFacesDetected ∧
      login db face_locations interp t =
          LoginOutcome.apiError ApiError.multipleFacesDetected) ∧
    (∀ r, get_face_encodings face_locations interp = Except.ok r →
      face_locations.length = 1) := by
  refine ⟨?_, fun h => ?_, fun r hr => ?_⟩
  · rintro rfl
    exact ⟨rfl, rfl, rfl⟩
  · have hne : face_locations.isEmpty = false := by
      cases face_locations with
      | nil => simp at h
      | cons x xs => rfl
    have hg : get_face_encodings face_locations interp =
        Except.error ApiError.multipleFacesDetected := by
      simp [get_face_encodings, hne, h]
    exact ⟨hg, by simp [register, hg], by simp [login, hg]⟩
  · unfold get_face_encodings at hr
    by_cases he : face_locations.isEmpty = true
    · rw [if_pos he] at hr
      exact Except.noConfusion hr
    · rw [if_neg he] at hr
      by_cases hl : 1 < face_locations.length
      · rw [if_pos hl] at hr
        exact Except.noConfusion hr
      · have h0 : face_locations ≠ [] := by
          intro hnil
          rw [hnil] at he
          exact he rfl
        have h1 : face_locations.length ≠ 0 := by
          simpa [List.length_eq_zero] using h0
        omega

/-- Witness for C4 at an empty and a two-region location list. -/
theorem face_count_policy_witness :
    get_face_encodings ([] : List FaceRegion) none =
        Except.error ApiError.noFaceDetected ∧
    get_face_encodings [(⟨0, 0, 0, 0⟩ : FaceRegion), ⟨1, 1, 1, 1⟩] none =
        Except.error ApiError.multipleFacesDetected :=
  ⟨((face_count_policy [] none none 0 "u").1 rfl).1,
    ((face_count_policy [⟨0, 0, 0, 0⟩, ⟨1, 1, 1, 1⟩] none none 0 "u").2.1
      (by norm_num)).1⟩

/-- C9: the model-availability check in `get_face_encodings` runs only
after the face-count checks: with a missing interpreter, zero regions
still yields `NoFaceDetected` and several regions still yields
`MultipleFacesDetected`; `modelNotInitialized` is reported exactly for
one-region inputs with a missing interpreter. -/
theorem model_check_order (face_locations : List FaceRegion) :
    (face_locations = [] →
      get_face_encodings face_locations none =
        Except.error ApiError.noFaceDetected) ∧
    (1 < face_locations.length →
      get_face_encodings face_locations none =
        Except.error ApiError.multipleFacesDetected) ∧
    (face_locations.length = 1 →
      get_face_encodings face_locations none =
        Except.error ApiError.modelNotInitialized) ∧
    (∀ interp : Option (FaceRegion → Embedding),
      get_face_encodings face_locations interp =
          Except.error ApiError.modelNotInitialized →
        face_locations.length = 1 ∧ interp = none) := by
  refine ⟨?_, fun h => ?_, fun h => ?_, fun interp hr => ?_⟩
  · rintro rfl
    rfl
  · have hne : face_locations.isEmpty = false := by
      cases face_locations with
      | nil => simp at h
      | cons x xs => rfl
    simp [get_face_encodings, hne, h]
  · have hne : face_locations.isEmpty = false := by
      cases face_locations with
      | nil => simp at h
      | cons x xs => rfl
    have hl : ¬ 1 < face_locations.length := by omega
    simp [get_face_encodings, hne, hl]
  · unfold get_face_encodings at hr
    by_cases he : face_locations.isEmpty = true
    · rw [if_pos he] at hr
      simp at hr
    · rw [if_neg he] at hr
      by_cases hl : 1 < face_locations.length
      · rw [if_pos hl] at hr
        simp at hr
      · have h0 : face_locations ≠ [] := by
          intro hnil
          rw [hnil] at he
          exact he rfl
        have h1 : face_locations.length ≠ 0 := by
          simpa [List.length_eq_zero] using h0
        refine ⟨by omega, ?_⟩
        cases interp with
        | none => rfl
        | some infer =>
          rw [if_neg hl] at hr
          exact Except.noConfusion hr

/-- Witness for C9: two faces with a missing model still reports the
face-count error; one face with a missing model reports the model
error. -/
theorem model_check_order_witness :
    get_face_encodings [(⟨0, 0, 0, 0⟩ : FaceRegion), ⟨1, 1, 1, 1⟩] none =
        Except.error ApiError.multipleFacesDetected ∧
    get_face_encodings [(⟨0, 0, 0, 0⟩ : FaceRegion)] none =
        Except.error ApiError.modelNotInitialized :=
  ⟨(model_check_order [⟨0, 0, 0, 0⟩, ⟨1, 1, 1, 1⟩]).2.1 (by norm_num),
    (model_check_order [⟨0, 0, 0, 0⟩]).2.2.1 rfl⟩

/-! ### Claims about the identity store -/

/-- C6: the read-path adapter of `get_all_users` turns an `encoding`
record into a one-element embeddings list, a `face_encodings` record into
that list of embeddings, skips records with neither field, and every
record of the output arises from a stored document through the
adapter (hence has the canonical shape). -/
theorem get_all_users_adapter (docs : Store) (uid : String) (e : List ℝ)
    (l : List (List ℝ)) (fe : Option (List (List ℝ))) :
    get_all_users (some docs) = Except.ok (docs.filterMap adaptUserDoc) ∧
    adaptUserDoc ⟨uid, some e, fe⟩ = some ⟨uid, [e]⟩ ∧
    adaptUserDoc ⟨uid, none, some l⟩ = some ⟨uid, l⟩ ∧
    adaptUserDoc ⟨uid, none, none⟩ = none ∧
    (∀ u : StoredUser, u ∈ docs.filterMap adaptUserDoc ↔
      ∃ doc ∈ docs, adaptUserDoc doc = some u) := by
  refine ⟨rfl, rfl, rfl, rfl, fun u => ?_⟩
  exact List.mem_filterMap

/-- C7: a failed store initialization is absorbed (`initialize_firebase`
is total and simply leaves no handle), and both data operations fail with
the explicit connection error when the handle is absent, instead of
dereferencing a null store. -/
theorem store_unavailable_spec (msg : String) (encs : List Embedding)
    (fresh : String) :
    initialize_firebase (Except.error msg) = none ∧
    save_user none encs fresh = Except.error DbError.connectionError ∧
    get_all_users none = Except.error DbError.connectionError :=
  ⟨rfl, rfl, rfl⟩

/-- C10: `save_user` rejects an empty encodings list with a value error;
on a non-empty list it persists exactly the first embedding under the
single-vector `encoding` shape keyed by the freshly generated id, which
it returns; all later list elements are discarded. -/
theorem save_user_spec (store : Store) (e : Embedding)
    (rest : List Embedding) (fresh : String) :
    save_user (some store) [] fresh = Except.error DbError.valueError ∧
    save_user (some store) (e :: rest) fresh =
      Except.ok (fresh, store ++ [⟨fresh, some e, none⟩]) :=
  ⟨rfl, rfl⟩

/-! ### Claims about the register flow -/

lemma get_face_encodings_single (loc : FaceRegion)
    (infer : FaceRegion → Embedding) :
    get_face_encodings [loc] (some infer) =
      Except.ok [normalize (infer loc)] := rfl

lemma findMatch_eq_none_iff (users : List StoredUser) (probe : Embedding)
    (t : ℝ) :
    findMatch users probe t = Except.ok none ↔
      ∀ u ∈ users,
        compare_faces u.face_encodings probe t = Except.ok false := by
  induction users with
  | nil => simp [findMatch]
  | cons u rest ih =>
    rcases hc : compare_faces u.face_encodings probe t with e | b
    · simp [findMatch, hc]
    · cases b with
      | false => simp [findMatch, hc, ih]
      | true => simp [findMatch, hc]

lemma findMatch_eq_some (users : List StoredUser) (probe : Embedding)
    (t : ℝ) (u : StoredUser)
    (h : findMatch users probe t = Except.ok (some u)) :
    u ∈ users ∧
      compare_faces u.face_encodings probe t = Except.ok true := by
  induction users with
  | nil => simp [findMatch] at h
  | cons v rest ih =>
    rcases hc : compare_faces v.face_encodings probe t with e | b
    · simp [findMatch, hc] at h
    · cases b with
      | false =>
        simp only [findMatch, hc] at h
        rcases ih h with ⟨hmem, hcmp⟩
        exact ⟨by simp [hmem], hcmp⟩
      | true =>
        simp only [findMatch, hc, Except.ok.injEq, Option.some.injEq] at h
        subst h
        exact ⟨by simp, hc⟩

/-- C3: in the register flow, once the probe embedding has been produced,
a match against any stored identity yields `Duplicate` with the store
unchanged, and no match appends exactly one new identity containing
exactly the probe embedding and yields `Registered` with its fresh id;
the match scan reports `none` exactly when no stored identity's
encodings match the probe. -/
theorem register_flow_spec (docs : Store) (loc : FaceRegion)
    (infer : FaceRegion → Embedding) (t : ℝ) (fresh : String) :
    (∀ u : StoredUser,
      findMatch (docs.filterMap adaptUserDoc) (normalize (infer loc)) t =
          Except.ok (some u) →
        u ∈ docs.filterMap adaptUserDoc ∧
        compare_faces u.face_encodings (normalize (infer loc)) t =
          Except.ok true ∧
        register (some docs) [loc] (some infer) t fresh =
          (RegisterOutcome.duplicate, some docs)) ∧
    (findMatch (docs.filterMap adaptUserDoc) (normalize (infer loc)) t =
        Except.ok none →
      register (some docs) [loc] (some infer) t fresh =
        (RegisterOutcome.registered fresh,
          some (docs ++ [⟨fresh, some (normalize (infer loc)), none⟩]))) ∧
    (findMatch (docs.filterMap adaptUserDoc) (normalize (infer loc)) t =
        Except.ok none ↔
      ∀ u ∈ docs.filterMap adaptUserDoc,
        compare_faces u.face_encodings (normalize (infer loc)) t =
          Except.ok false) := by
  refine ⟨fun u hm => ?_, fun hm => ?_, findMatch_eq_none_iff _ _ _⟩
  · rcases findMatch_eq_some _ _ _ _ hm with ⟨hmem, hcmp⟩
    refine ⟨hmem, hcmp, ?_⟩
    simp [register, get_face_encodings_single, get_all_users, hm]
  · simp [register, get_face_encodings_single, get_all_users, save_user, hm]

/-- Witness for C3: registering against an empty store succeeds and
appends the single probe embedding under the fresh id. -/
theorem register_flow_spec_witness :
    findMatch (List.filterMap adaptUserDoc ([] : Store))
        (normalize [(1 : ℝ), 0]) 1 = Except.ok none ∧
    register (some ([] : Store)) [⟨0, 0, 0, 0⟩]
        (some (fun _ => [(1 : ℝ), 0])) 1 "user-1" =
      (RegisterOutcome.registered "user-1",
        some [⟨"user-1", some (normalize [(1 : ℝ), 0]), none⟩]) := by
  have h : findMatch (List.filterMap adaptUserDoc ([] : Store))
      (normalize [(1 : ℝ), 0]) 1 = Except.ok none := by
    simp [findMatch]
  refine ⟨h, ?_⟩
  have h2 := (register_flow_spec [] (⟨0, 0, 0, 0⟩ : FaceRegion)
    (fun _ => [(1 : ℝ), 0]) 1 "user-1").2.1 h
  simpa using h2

end FacialRecognition
